import Mathlib

/-!
Verification development for the JetsonMind C frontend
(src/core/frontend/main.c, the networked variant, and
src/core/frontend/main_simple.c, the mock variant).

The two programs are shallowly embedded as pure step functions over
explicit state records.  Standard input is a list of characters; the
stack buffers of main (input, 1024 bytes, and result, 4096 bytes) are
lists of characters carried in the state; console output and network
activity are recorded as an explicit list of effects.  The third-party
calls the networked variant makes are modelled as follows:

* libcurl: the outcome of one curl_easy_perform call is an environment
  input (TransportOutcome).  A successful transfer carries the bytes
  accumulated by WriteCallback, or nothing at all when the response body
  was empty, in which case response.data stays NULL in the C code.
  Allocation (curl_easy_init, realloc in WriteCallback) is assumed to
  succeed, as everywhere in the embedding.
* json-c: JVal models json_object; jsonTokenerParse models
  json_tokener_parse (restricted to the integer-valued numbers the
  client produces: doubles are not modelled, and no claim exercises
  them); jvalToSpaced models json_object_to_json_string, whose default
  flags are JSON_C_TO_STRING_SPACED and which escapes the forward slash
  by default.  Characters stand for bytes; all claim-relevant data is
  ASCII.

Machine integers never approach their bounds in any claim, so C int is
modelled as Int.
-/

/-- Converts a string literal to the list-of-characters representation
used throughout this development. -/
def lit (s : String) : List Char := s.toList

/-! ## C standard-library primitives used by main -/

/-- Characters accepted by isspace in the C locale, which the scanf
conversion for a decimal integer skips. -/
def isCSpace (c : Char) : Bool :=
  c = ' ' || c = '\t' || c = '\n' || c = '\x0b' || c = '\x0c' || c = '\r'

/-- Numeric value of a list of decimal digits. -/
def digitsVal (ds : List Char) : Int :=
  ds.foldl (fun a c => a * 10 + (Int.ofNat (c.toNat - '0'.toNat))) 0

/-- Models one scanf conversion with the d specifier: skip whitespace,
read an optional sign and a run of digits.  On a matching failure the
first offending character is pushed back (so at most the whitespace and
a lone sign are consumed), and no value is produced. -/
def scanfD (s : List Char) : Option Int × List Char :=
  let s1 := s.dropWhile isCSpace
  match s1 with
  | '-' :: rest =>
      let ds := rest.takeWhile Char.isDigit
      if ds.isEmpty then (none, rest)
      else (some (-(digitsVal ds)), rest.drop ds.length)
  | '+' :: rest =>
      let ds := rest.takeWhile Char.isDigit
      if ds.isEmpty then (none, rest)
      else (some (digitsVal ds), rest.drop ds.length)
  | _ =>
      let ds := s1.takeWhile Char.isDigit
      if ds.isEmpty then (none, s1)
      else (some (digitsVal ds), s1.drop ds.length)

/-- Models getchar: consumes one character of the stream (none at end
of file); main discards the value it returns. -/
def getchar1 (s : List Char) : List Char :=
  match s with
  | [] => []
  | _ :: r => r

/-- Characters consumed by one fgets call with room for n characters
plus the terminator: at most n characters, stopping after the first
newline. -/
def takeLine (n : Nat) (s : List Char) : List Char :=
  match n, s with
  | 0, _ => []
  | _, [] => []
  | Nat.succ m, c :: r => if c = '\n' then [c] else c :: takeLine m r

/-- Models fgets(buf, 1024, stdin): at end of file it returns NULL and
leaves the buffer alone; otherwise it stores the consumed characters
and a terminating NUL into the buffer, leaving the bytes beyond them
untouched.  Returns the new buffer and the rest of the stream. -/
def fgets1024 (buf s : List Char) : List Char × List Char :=
  if s.isEmpty then (buf, s)
  else
    let ln := takeLine 1023 s
    (ln ++ '\x00' :: buf.drop (ln.length + 1), s.drop ln.length)

/-- Models the idiom buf[strcspn(buf, newline)] = 0: the first newline
of the C string in the buffer is overwritten with NUL (writing NUL over
the terminator when the string has no newline).  A buffer with neither
character is left alone; the C code never reaches that state. -/
def stripNewline (buf : List Char) : List Char :=
  match buf with
  | [] => []
  | c :: r => if c = '\n' || c = '\x00' then '\x00' :: r else c :: stripNewline r

/-- The C string held in a buffer: its characters up to the first NUL. -/
def cStr (buf : List Char) : List Char :=
  buf.takeWhile (fun c => c != '\x00')

/-- Models snprintf(result, 4096, fmt, ...) producing the formatted
string s: at most 4095 characters of s are stored, then a NUL; bytes
of the buffer beyond the written region are untouched. -/
def snprintfWrite (buf s : List Char) : List Char :=
  let w := s.take 4095
  w ++ '\x00' :: buf.drop (w.length + 1)

/-! ## json-c model -/

/-- Models json_object: the JSON values json-c distinguishes, except
that numbers are restricted to integers (the client only ever produces
integers, and no claim exercises doubles). -/
inductive JVal where
  | jnull
  | jbool (b : Bool)
  | jint (n : Int)
  | jstr (s : List Char)
  | jarr (xs : List JVal)
  | jobj (fields : List (List Char × JVal))

/-- Lowercase hexadecimal digit, as in json_hex_chars of json-c. -/
def hexDigitChar (n : Nat) : Char :=
  if n < 10 then Char.ofNat ('0'.toNat + n) else Char.ofNat ('a'.toNat + n - 10)

/-- Models json_escape_str with default flags: quote, backslash and
forward slash are escaped, the usual control characters get two-letter
escapes, and the remaining characters below 0x20 are printed as a
four-digit unicode escape. -/
def escChar (c : Char) : List Char :=
  if c = '"' then lit "\\\""
  else if c = '\\' then lit "\\\\"
  else if c = '/' then lit "\\/"
  else if c = '\x08' then lit "\\b"
  else if c = '\x0c' then lit "\\f"
  else if c = '\n' then lit "\\n"
  else if c = '\r' then lit "\\r"
  else if c = '\t' then lit "\\t"
  else if c.toNat < 0x20 then
    lit "\\u00" ++ [hexDigitChar (c.toNat / 16), hexDigitChar (c.toNat % 16)]
  else [c]

/-- Escapes every character of a string body. -/
def escStr (s : List Char) : List Char :=
  s.flatMap escChar

mutual

/-- Models json_object_to_json_string, whose default flags are
JSON_C_TO_STRING_SPACED: a space follows an opening bracket, a comma is
followed by a space, a colon is followed by a space, and a space
precedes the closing bracket (also for the empty object and array). -/
def jvalToSpaced : JVal → List Char
  | JVal.jnull => lit "null"
  | JVal.jbool true => lit "true"
  | JVal.jbool false => lit "false"
  | JVal.jint n => (toString n).toList
  | JVal.jstr s => '"' :: (escStr s ++ ['"'])
  | JVal.jarr [] => lit "[ ]"
  | JVal.jarr (x :: xs) => lit "[ " ++ jvalToSpaced x ++ jarrRest xs ++ lit " ]"
  | JVal.jobj [] => lit "\x7b \x7d"
  | JVal.jobj (f :: fs) => lit "\x7b " ++ jfield f ++ jobjRest fs ++ lit " \x7d"

/-- One object member in spaced form: quoted escaped key, colon, space,
value. -/
def jfield : List Char × JVal → List Char
  | (k, v) => '"' :: (escStr k ++ lit "\": " ++ jvalToSpaced v)

/-- Remaining array elements, each preceded by a comma and a space. -/
def jarrRest : List JVal → List Char
  | [] => []
  | x :: xs => lit ", " ++ jvalToSpaced x ++ jarrRest xs

/-- Remaining object members, each preceded by a comma and a space. -/
def jobjRest : List (List Char × JVal) → List Char
  | [] => []
  | f :: fs => lit ", " ++ jfield f ++ jobjRest fs

end

/-! ## json_tokener_parse model -/

/-- JSON whitespace skipped between tokens. -/
def skipWs (s : List Char) : List Char :=
  s.dropWhile (fun c => c = ' ' || c = '\t' || c = '\n' || c = '\r')

/-- Value of one hexadecimal digit, if any. -/
def hexVal (c : Char) : Option Nat :=
  if '0' ≤ c ∧ c ≤ '9' then some (c.toNat - '0'.toNat)
  else if 'a' ≤ c ∧ c ≤ 'f' then some (c.toNat - 'a'.toNat + 10)
  else if 'A' ≤ c ∧ c ≤ 'F' then some (c.toNat - 'A'.toNat + 10)
  else none

/-- Decodes a single-letter string escape. -/
def escDecode (c : Char) : Option Char :=
  if c = '"' then some '"'
  else if c = '\\' then some '\\'
  else if c = '/' then some '/'
  else if c = 'b' then some '\x08'
  else if c = 'f' then some '\x0c'
  else if c = 'n' then some '\n'
  else if c = 'r' then some '\r'
  else if c = 't' then some '\t'
  else none

/-- Scans a string body after its opening quote, decoding escapes, and
returns the decoded characters together with the rest of the input. -/
def scanStrBody (s : List Char) (acc : List Char) : Option (List Char × List Char) :=
  match s with
  | [] => none
  | '"' :: r => some (acc.reverse, r)
  | '\\' :: 'u' :: h1 :: h2 :: h3 :: h4 :: r =>
      match hexVal h1, hexVal h2, hexVal h3, hexVal h4 with
      | some a, some b, some c, some d =>
          scanStrBody r (Char.ofNat (((a * 16 + b) * 16 + c) * 16 + d) :: acc)
      | _, _, _, _ => none
  | '\\' :: e :: r =>
      match escDecode e with
      | some c => scanStrBody r (c :: acc)
      | none => none
  | c :: r => scanStrBody r (c :: acc)
termination_by s.length
decreasing_by all_goals simp <;> omega

/-- Matches an expected literal tail, returning the rest of the input. -/
def stripLit (w s : List Char) : Option (List Char) :=
  match w, s with
  | [], rest => some rest
  | c :: cs, d :: ds => if c = d then stripLit cs ds else none
  | _ :: _, [] => none

/-- Parses a number token (integers only; see JVal). -/
def scanNum (s : List Char) : Option (JVal × List Char) :=
  match s with
  | '-' :: r =>
      let ds := r.takeWhile Char.isDigit
      if ds.isEmpty then none
      else some (JVal.jint (-(digitsVal ds)), r.drop ds.length)
  | _ =>
      let ds := s.takeWhile Char.isDigit
      if ds.isEmpty then none
      else some (JVal.jint (digitsVal ds), s.drop ds.length)

mutual

/-- Fueled recursive-descent JSON value parser modelling
json_tokener_parse_ex. -/
def parseVal : Nat → List Char → Option (JVal × List Char)
  | 0, _ => none
  | Nat.succ f, s =>
    match skipWs s with
    | [] => none
    | c :: r =>
      if c = '\x7b' then parseFields f r []
      else if c = '[' then parseElems f r []
      else if c = '"' then
        match scanStrBody r [] with
        | some (cs, r1) => some (JVal.jstr cs, r1)
        | none => none
      else if c = 't' then (stripLit (lit "rue") r).map (fun r1 => (JVal.jbool true, r1))
      else if c = 'f' then (stripLit (lit "alse") r).map (fun r1 => (JVal.jbool false, r1))
      else if c = 'n' then (stripLit (lit "ull") r).map (fun r1 => (JVal.jnull, r1))
      else if c = '-' || c.isDigit then scanNum (c :: r)
      else none

/-- Parses the members of an object after its opening brace. -/
def parseFields : Nat → List Char → List (List Char × JVal) →
    Option (JVal × List Char)
  | 0, _, _ => none
  | Nat.succ f, s, acc =>
    match skipWs s with
    | '\x7d' :: r => some (JVal.jobj acc.reverse, r)
    | '"' :: r =>
      match scanStrBody r [] with
      | some (k, r1) =>
        match skipWs r1 with
        | ':' :: r2 =>
          match parseVal f r2 with
          | some (v, r3) =>
            match skipWs r3 with
            | ',' :: r4 => parseFields f r4 ((k, v) :: acc)
            | '\x7d' :: r4 => some (JVal.jobj (((k, v) :: acc).reverse), r4)
            | _ => none
          | none => none
        | _ => none
      | none => none
    | _ => none

/-- Parses the elements of an array after its opening bracket. -/
def parseElems : Nat → List Char → List JVal → Option (JVal × List Char)
  | 0, _, _ => none
  | Nat.succ f, s, acc =>
    match skipWs s with
    | ']' :: r => some (JVal.jarr acc.reverse, r)
    | s1 =>
      match parseVal f s1 with
      | some (v, r1) =>
        match skipWs r1 with
        | ',' :: r2 => parseElems f r2 (v :: acc)
        | ']' :: r2 => some (JVal.jarr ((v :: acc).reverse), r2)
        | _ => none
      | none => none

end

/-- Models json_tokener_parse: parses one JSON value from the front of
the text (trailing characters are ignored), returning none where the C
function returns NULL. -/
def jsonTokenerParse (s : List Char) : Option JVal :=
  (parseVal (s.length + 1) s).map Prod.fst

/-! ## call_mcp_tool -/

/-- Environment input describing what one curl_easy_perform call did:
either it failed (any non-OK CURLcode), or it succeeded, carrying the
bytes WriteCallback accumulated, with none standing for an empty
response body in which case response.data remains NULL. -/
inductive TransportOutcome where
  | failure
  | success (data : Option (List Char))
deriving Repr, DecidableEq

/-- Observable effects of the program: console output, entry into
call_mcp_tool with a tool name and an arguments string, and the one
configured HTTP transfer attempt that curl_easy_perform makes. -/
inductive Effect where
  | eprint (s : List Char)
  | rpcCall (tool args : List Char)
  | httpPost (url header body : List Char)
deriving Repr, DecidableEq

/-- The fixed endpoint of the networked variant. -/
def urlMcp : List Char := lit "http://localhost:8080/mcp"

/-- The one header the networked variant sets. -/
def ctJson : List Char := lit "Content-Type: application/json"

/-- The serialized JSON-RPC envelope call_mcp_tool posts: jsonrpc 2.0,
method tools/call, id 1, and params holding the tool name and the
parsed arguments.  A NULL parse result serializes as null, exactly as
json-c serializes a NULL member. -/
def buildRequestBody (tool args : List Char) : List Char :=
  jvalToSpaced (JVal.jobj
    [ (lit "jsonrpc", JVal.jstr (lit "2.0")),
      (lit "method", JVal.jstr (lit "tools/call")),
      (lit "id", JVal.jint 1),
      (lit "params", JVal.jobj
        [ (lit "name", JVal.jstr tool),
          (lit "arguments", (jsonTokenerParse args).getD JVal.jnull) ]) ])

/-- Models the final buffer write of call_mcp_tool on a successful
transfer with data: strncpy(result, response.data, 4095) copies the
C-string prefix of the accumulated bytes, padding with NUL up to 4095
characters, and then result[4095] is set to NUL. -/
def writeResponse (dest data : List Char) : List Char :=
  let text := cStr data
  let w := text.take 4095
  (w ++ List.replicate (4095 - w.length) '\x00' ++ dest.drop 4095).set 4095 '\x00'

/-- Models call_mcp_tool of main.c: builds the envelope from the
arguments string as read at entry (the parse at line 43 precedes every
write to the result buffer, which happens only at lines 67 and 68),
performs one transfer, and copies the response out only when the
transfer succeeded and at least one byte of data arrived.  Returns the
C return value, the result buffer after the call, and the effects. -/
def call_mcp_tool (tool args : List Char) (outcome : TransportOutcome)
    (result : List Char) : Int × List Char × List Effect :=
  let effs := [Effect.rpcCall tool args,
               Effect.httpPost urlMcp ctJson (buildRequestBody tool args)]
  match outcome with
  | TransportOutcome.failure => (-1, result, effs)
  | TransportOutcome.success none => (0, result, effs)
  | TransportOutcome.success (some data) => (0, writeResponse result data, effs)

/-! ## The menu loop of the networked variant (main.c) -/

/-- The text print_menu writes, shared by both variants. -/
def menuStr : List Char :=
  lit "\n=== Phase 3 Control Panel ===\n1. Generate Text\n2. System Status\n3. Start Frontend\n4. Debug Mode\n5. Agent Config\n6. Database Management\n7. Settings\n8. Exit\nChoice: "

/-- State of the networked variant between loop iterations: the unread
standard input, the contents of the two stack buffers of main, and the
environment of transport outcomes (the outcome of the k-th
call_mcp_tool invocation is oracle k; calls counts the invocations made
so far). -/
structure NetState where
  stdin : List Char
  inputBuf : List Char
  resultBuf : List Char
  oracle : Nat → TransportOutcome
  calls : Nat

/-- Result of one loop iteration: either the loop continues with a new
state, or main returns with an exit code; both carry the effects of the
iteration in order. -/
inductive StepOut (σ : Type) where
  | cont (st : σ) (effs : List Effect)
  | exit (code : Int) (effs : List Effect)

/-- Effects of a step. -/
def stepEffects {σ : Type} : StepOut σ → List Effect
  | StepOut.cont _ e => e
  | StepOut.exit _ e => e

/-- Exit code of a step, if the iteration returned from main. -/
def exitCodeOf {σ : Type} : StepOut σ → Option Int
  | StepOut.cont _ _ => none
  | StepOut.exit c _ => some c

/-- Whether the loop continues after the step. -/
def isCont {σ : Type} : StepOut σ → Bool
  | StepOut.cont _ _ => true
  | StepOut.exit _ _ => false

/-- Dispatch of the switch statement of main.c on a successfully parsed
choice.  Each case mirrors the source: cases 1 and 4 read a secondary
value and build their arguments string in the result buffer itself,
passing that same buffer as both the arguments string and the output
destination; cases 2, 3, 5, 6 and 7 pass a literal empty-object string;
case 8 returns 0; any other value prints the invalid-choice message. -/
def netAction (choice : Int) (st : NetState) : StepOut NetState :=
  if choice = 1 then
    let s1 := getchar1 st.stdin
    let fb := fgets1024 st.inputBuf s1
    let buf2 := stripNewline fb.1
    let formatted := lit "\x7b\"prompt\":\"" ++ cStr buf2 ++ lit "\"\x7d"
    let res1 := snprintfWrite st.resultBuf formatted
    let r := call_mcp_tool (lit "generate") (cStr res1) (st.oracle st.calls) res1
    StepOut.cont
      { st with stdin := fb.2, inputBuf := buf2, resultBuf := r.2.1,
                calls := st.calls + 1 }
      (Effect.eprint (lit "Enter prompt: ") :: r.2.2 ++
        (if r.1 = 0 then [Effect.eprint (lit "Result: " ++ cStr r.2.1 ++ lit "\n")]
         else [Effect.eprint (lit "Error calling generate tool\n")]))
  else if choice = 2 then
    let r := call_mcp_tool (lit "get_status") (lit "\x7b\x7d") (st.oracle st.calls) st.resultBuf
    StepOut.cont { st with resultBuf := r.2.1, calls := st.calls + 1 }
      (r.2.2 ++
        (if r.1 = 0 then [Effect.eprint (lit "Status: " ++ cStr r.2.1 ++ lit "\n")]
         else [Effect.eprint (lit "Error getting status\n")]))
  else if choice = 3 then
    let r := call_mcp_tool (lit "start_frontend") (lit "\x7b\x7d") (st.oracle st.calls) st.resultBuf
    StepOut.cont { st with resultBuf := r.2.1, calls := st.calls + 1 }
      (r.2.2 ++
        (if r.1 = 0 then [Effect.eprint (lit "Frontend: " ++ cStr r.2.1 ++ lit "\n")]
         else [Effect.eprint (lit "Error starting frontend\n")]))
  else if choice = 4 then
    let p := scanfD st.stdin
    let lv : Int := p.1.getD 4
    let formatted := lit "\x7b\"level\":" ++ (toString lv).toList ++ lit "\x7d"
    let res1 := snprintfWrite st.resultBuf formatted
    let r := call_mcp_tool (lit "set_debug") (cStr res1) (st.oracle st.calls) res1
    StepOut.cont
      { st with stdin := p.2, resultBuf := r.2.1, calls := st.calls + 1 }
      (Effect.eprint (lit "Debug level (0-3): ") :: r.2.2 ++
        (if r.1 = 0 then [Effect.eprint (lit "Debug: " ++ cStr r.2.1 ++ lit "\n")]
         else []))
  else if choice = 5 then
    let r := call_mcp_tool (lit "get_agent_config") (lit "\x7b\x7d") (st.oracle st.calls) st.resultBuf
    StepOut.cont { st with resultBuf := r.2.1, calls := st.calls + 1 }
      (r.2.2 ++
        (if r.1 = 0 then [Effect.eprint (lit "Config: " ++ cStr r.2.1 ++ lit "\n")]
         else []))
  else if choice = 6 then
    let r := call_mcp_tool (lit "db_status") (lit "\x7b\x7d") (st.oracle st.calls) st.resultBuf
    StepOut.cont { st with resultBuf := r.2.1, calls := st.calls + 1 }
      (r.2.2 ++
        (if r.1 = 0 then [Effect.eprint (lit "Database: " ++ cStr r.2.1 ++ lit "\n")]
         else []))
  else if choice = 7 then
    let r := call_mcp_tool (lit "get_settings") (lit "\x7b\x7d") (st.oracle st.calls) st.resultBuf
    StepOut.cont { st with resultBuf := r.2.1, calls := st.calls + 1 }
      (r.2.2 ++
        (if r.1 = 0 then [Effect.eprint (lit "Settings: " ++ cStr r.2.1 ++ lit "\n")]
         else []))
  else if choice = 8 then
    StepOut.exit 0 [Effect.eprint (lit "Goodbye!\n")]
  else
    StepOut.cont st [Effect.eprint (lit "Invalid choice\n")]

/-- Prepends the menu printed at the top of the loop body to the
effects of the dispatched action. -/
def withMenu {σ : Type} : StepOut σ → StepOut σ
  | StepOut.cont s e => StepOut.cont s (Effect.eprint menuStr :: e)
  | StepOut.exit c e => StepOut.exit c (Effect.eprint menuStr :: e)

/-- One iteration of the while loop of main.c: print the menu, read a
choice with scanf, and either report invalid input or dispatch. -/
def netLoopStep (st : NetState) : StepOut NetState :=
  let p := scanfD st.stdin
  match p.1 with
  | none =>
      StepOut.cont { st with stdin := p.2 }
        [Effect.eprint menuStr, Effect.eprint (lit "Invalid input\n")]
  | some n => withMenu (netAction n { st with stdin := p.2 })

/-- Runs the loop of the networked variant for at most fuel iterations,
collecting the effects and the exit code, if main returned. -/
def runNet : Nat → NetState → List Effect × Option Int
  | 0, _ => ([], none)
  | Nat.succ f, st =>
      match netLoopStep st with
      | StepOut.exit c e => (e, some c)
      | StepOut.cont st1 e => (e ++ (runNet f st1).1, (runNet f st1).2)

/-- The banner main.c prints before entering the loop, and the whole
process behaviour of the networked variant. -/
def runNetMain (fuel : Nat) (st : NetState) : List Effect × Option Int :=
  let (es, r) := runNet fuel st
  (Effect.eprint (lit "Phase 3 C Frontend v1.0\n") :: es, r)

/-! ## The menu loop of the mock variant (main_simple.c) -/

/-- State of the mock variant: the unread standard input and the one
stack buffer of its main. -/
structure MockState where
  stdin : List Char
  inputBuf : List Char

/-- Dispatch of the switch statement of main_simple.c.  Every case only
prints fixed literals (case 1 echoes the line just read, case 4 the
integer just read); no case performs any network activity. -/
def mockAction (choice : Int) (st : MockState) : StepOut MockState :=
  if choice = 1 then
    let s1 := getchar1 st.stdin
    let fb := fgets1024 st.inputBuf s1
    let buf2 := stripNewline fb.1
    StepOut.cont { stdin := fb.2, inputBuf := buf2 }
      [Effect.eprint (lit "Enter prompt: "),
       Effect.eprint (lit "Generated: Mock text for '" ++ cStr buf2 ++ lit "'\n")]
  else if choice = 2 then
    StepOut.cont st
      [Effect.eprint (lit "Status: \x7b\n"),
       Effect.eprint (lit "  \"status\": \"healthy\",\n"),
       Effect.eprint (lit "  \"server\": \"phase3-admin\",\n"),
       Effect.eprint (lit "  \"version\": \"1.0.0\",\n"),
       Effect.eprint (lit "  \"frontend_running\": true\n"),
       Effect.eprint (lit "\x7d\n")]
  else if choice = 3 then
    StepOut.cont st [Effect.eprint (lit "Frontend: Started on port 8080\n")]
  else if choice = 4 then
    let p := scanfD st.stdin
    let lv : Int := p.1.getD 4
    StepOut.cont { st with stdin := p.2 }
      [Effect.eprint (lit "Debug level (0-3): "),
       Effect.eprint (lit "Debug: Level set to " ++ (toString lv).toList ++ lit "\n")]
  else if choice = 5 then
    StepOut.cont st
      [Effect.eprint (lit "Config: \x7b\n"),
       Effect.eprint (lit "  \"model\": \"gpt-4\",\n"),
       Effect.eprint (lit "  \"temperature\": 0.7,\n"),
       Effect.eprint (lit "  \"max_tokens\": 1000\n"),
       Effect.eprint (lit "\x7d\n")]
  else if choice = 6 then
    StepOut.cont st
      [Effect.eprint (lit "Database: \x7b\n"),
       Effect.eprint (lit "  \"connected\": true,\n"),
       Effect.eprint (lit "  \"sessions\": 0,\n"),
       Effect.eprint (lit "  \"settings\": 3\n"),
       Effect.eprint (lit "\x7d\n")]
  else if choice = 7 then
    StepOut.cont st
      [Effect.eprint (lit "Settings: \x7b\n"),
       Effect.eprint (lit "  \"debug_level\": 1,\n"),
       Effect.eprint (lit "  \"frontend_port\": 8080,\n"),
       Effect.eprint (lit "  \"agent_model\": \"gpt-4\"\n"),
       Effect.eprint (lit "\x7d\n")]
  else if choice = 8 then
    StepOut.exit 0 [Effect.eprint (lit "Goodbye!\n")]
  else
    StepOut.cont st [Effect.eprint (lit "Invalid choice\n")]

/-- One iteration of the while loop of main_simple.c. -/
def mockLoopStep (st : MockState) : StepOut MockState :=
  let p := scanfD st.stdin
  match p.1 with
  | none =>
      StepOut.cont { st with stdin := p.2 }
        [Effect.eprint menuStr, Effect.eprint (lit "Invalid input\n")]
  | some n => withMenu (mockAction n { st with stdin := p.2 })

/-- Runs the loop of the mock variant for at most fuel iterations. -/
def runMock : Nat → MockState → List Effect × Option Int
  | 0, _ => ([], none)
  | Nat.succ f, st =>
      match mockLoopStep st with
      | StepOut.exit c e => (e, some c)
      | StepOut.cont st1 e => (e ++ (runMock f st1).1, (runMock f st1).2)

/-! ## Effect classifiers -/

/-- Whether an effect is console output. -/
def isPrintE : Effect → Bool
  | Effect.eprint _ => true
  | _ => false

/-- Whether an effect is an entry into the RPC client. -/
def isRpcE : Effect → Bool
  | Effect.rpcCall _ _ => true
  | _ => false

/-- Whether an effect is the configured HTTP transfer attempt. -/
def isPostE : Effect → Bool
  | Effect.httpPost _ _ _ => true
  | _ => false

/-- Whether an effect is network activity of either kind. -/
def isNetE (e : Effect) : Bool := isRpcE e || isPostE e

/-! ## Helper lemmas about the C primitives -/

/-- Setting the element just past a prefix works on the suffix. -/
theorem set_append_len (l m : List Char) (a : Char) :
    (l ++ m).set l.length a = l ++ m.set 0 a := by
  induction l with
  | nil => simp
  | cons c t ih => simp [List.set, ih]

/-- A NUL-free list is its own C string. -/
theorem cStr_of_no_nul (l : List Char) (h : '\x00' ∉ l) : cStr l = l := by
  unfold cStr
  rw [List.takeWhile_eq_self_iff]
  intro x hx
  simp only [bne_iff_ne, ne_eq]
  exact fun he => h (he ▸ hx)

/-- The C string of a NUL-free prefix followed by a NUL terminator. -/
theorem cStr_append_nul (l t : List Char) (h : '\x00' ∉ l) :
    cStr (l ++ '\x00' :: t) = l := by
  induction l with
  | nil => simp [cStr]
  | cons c r ih =>
      simp only [List.mem_cons, not_or] at h
      simp only [cStr, List.cons_append, List.takeWhile_cons]
      have hc : (c != '\x00') = true := by
        simp only [bne_iff_ne, ne_eq]
        exact fun he => h.1 he.symm
      rw [hc]
      simp only [if_true]
      exact congrArg (c :: ·) (ih (fun hm => h.2 hm))

/-- With enough room, fgets consumes a newline-free line together with
its newline. -/
theorem takeLine_newline (line rest : List Char) (n : Nat)
    (h : '\n' ∉ line) (hlen : line.length < n) :
    takeLine n (line ++ '\n' :: rest) = line ++ ['\n'] := by
  induction line generalizing n with
  | nil =>
      cases n with
      | zero => omega
      | succ m => simp [takeLine]
  | cons c r ih =>
      cases n with
      | zero => omega
      | succ m =>
          simp only [List.mem_cons, not_or] at h
          simp only [List.cons_append, takeLine]
          rw [if_neg (fun he => h.1 he.symm)]
          simp only [List.length_cons] at hlen
          exact congrArg (c :: ·) (ih m (fun hm => h.2 hm) (by omega))

/-- With the room exactly filled, fgets consumes only the line. -/
theorem takeLine_full (line s : List Char) (n : Nat)
    (h : '\n' ∉ line) (hlen : line.length = n) :
    takeLine n (line ++ s) = line := by
  induction line generalizing n with
  | nil =>
      subst hlen
      cases s with
      | nil => simp [takeLine]
      | cons c t => simp [takeLine]
  | cons c r ih =>
      cases n with
      | zero => simp at hlen
      | succ m =>
          simp only [List.mem_cons, not_or] at h
          simp only [List.cons_append, takeLine]
          rw [if_neg (fun he => h.1 he.symm)]
          simp only [List.length_cons] at hlen
          exact congrArg (c :: ·) (ih m (fun hm => h.2 hm) (by omega))

/-- The newline strip replaces the newline ending a clean line by NUL. -/
theorem stripNewline_line (line t : List Char)
    (h : '\n' ∉ line) (h0 : '\x00' ∉ line) :
    stripNewline (line ++ '\n' :: t) = line ++ '\x00' :: t := by
  induction line with
  | nil => simp [stripNewline]
  | cons c r ih =>
      simp only [List.mem_cons, not_or] at h h0
      simp only [List.cons_append, stripNewline]
      rw [if_neg (by simp; exact ⟨fun he => h.1 he.symm, fun he => h0.1 he.symm⟩)]
      exact congrArg (c :: ·) (ih (fun hm => h.2 hm) (fun hm => h0.2 hm))

/-- The newline strip leaves a clean NUL-terminated line alone. -/
theorem stripNewline_nul (line t : List Char)
    (h : '\n' ∉ line) (h0 : '\x00' ∉ line) :
    stripNewline (line ++ '\x00' :: t) = line ++ '\x00' :: t := by
  induction line with
  | nil => simp [stripNewline]
  | cons c r ih =>
      simp only [List.mem_cons, not_or] at h h0
      simp only [List.cons_append, stripNewline]
      rw [if_neg (by simp; exact ⟨fun he => h.1 he.symm, fun he => h0.1 he.symm⟩)]
      exact congrArg (c :: ·) (ih (fun hm => h.2 hm) (fun hm => h0.2 hm))

/-- The effects of call_mcp_tool do not depend on the transfer outcome
or the result buffer: one entry event and one configured transfer. -/
theorem call_mcp_tool_effects (tool args : List Char)
    (o : TransportOutcome) (buf : List Char) :
    (call_mcp_tool tool args o buf).2.2 =
      [Effect.rpcCall tool args,
       Effect.httpPost urlMcp ctJson (buildRequestBody tool args)] := by
  cases o with
  | failure => rfl
  | success d => cases d <;> rfl

/-- The return value of call_mcp_tool depends only on the outcome. -/
theorem call_mcp_tool_ret (tool args : List Char)
    (o : TransportOutcome) (buf : List Char) :
    (call_mcp_tool tool args o buf).1 =
      (if o = TransportOutcome.failure then -1 else 0) := by
  cases o with
  | failure => rfl
  | success d => cases d <;> rfl

/-! ## The claims -/

/-- Claim C7: in the mock variant, entering choice 5 prints, beyond the
menu, exactly the literal five printf outputs of the source: the line
opening the Config block and the three field lines for model gpt-4,
temperature 0.7 and max_tokens 1000, followed by the closing line; the
loop then continues with only the choice digit consumed. -/
theorem claim_C7 (rest ib : List Char) :
    mockLoopStep ⟨'5' :: '\n' :: rest, ib⟩ =
      StepOut.cont ⟨'\n' :: rest, ib⟩
        [Effect.eprint menuStr,
         Effect.eprint (lit "Config: \x7b\n"),
         Effect.eprint (lit "  \"model\": \"gpt-4\",\n"),
         Effect.eprint (lit "  \"temperature\": 0.7,\n"),
         Effect.eprint (lit "  \"max_tokens\": 1000\n"),
         Effect.eprint (lit "\x7d\n")] := rfl

/-- Claim C9: the observable request of call_mcp_tool is a function of
the tool name and the string contents of the args parameter at entry
alone.  The first part states that the return value and the emitted
request are independent of the contents of the output buffer; the
second and third parts state that at the two aliased call sites
(actions 1 and 4 pass the result buffer both as the arguments string
and as the output destination) the posted envelope is built from the
arguments string exactly as the snprintf call left it, which is what a
two-buffer version would post.  This matches the source order: the
arguments are parsed at line 43, before the buffer is first written at
line 67. -/
theorem claim_C9 :
    (∀ (tool args : List Char) (o : TransportOutcome) (buf buf' : List Char),
        (call_mcp_tool tool args o buf).1 = (call_mcp_tool tool args o buf').1 ∧
        (call_mcp_tool tool args o buf).2.2 = (call_mcp_tool tool args o buf').2.2) ∧
    (∀ st : NetState,
        (stepEffects (netAction 1 st)).filter isPostE =
          [Effect.httpPost urlMcp ctJson (buildRequestBody (lit "generate")
            (cStr (snprintfWrite st.resultBuf
              (lit "\x7b\"prompt\":\"" ++
                cStr (stripNewline (fgets1024 st.inputBuf (getchar1 st.stdin)).1) ++
                lit "\"\x7d"))))]) ∧
    (∀ st : NetState,
        (stepEffects (netAction 4 st)).filter isPostE =
          [Effect.httpPost urlMcp ctJson (buildRequestBody (lit "set_debug")
            (cStr (snprintfWrite st.resultBuf
              (lit "\x7b\"level\":" ++
                (toString ((scanfD st.stdin).1.getD 4)).toList ++
                lit "\x7d"))))]) := by
  refine ⟨fun tool args o buf buf' => ⟨?_, ?_⟩, fun st => ?_, fun st => ?_⟩
  · rw [call_mcp_tool_ret, call_mcp_tool_ret]
  · rw [call_mcp_tool_effects, call_mcp_tool_effects]
  · simp only [netAction, Int.reduceEq, reduceIte, stepEffects, call_mcp_tool_effects]
    split <;> simp [isPostE]
  · simp only [netAction, Int.reduceEq, reduceIte, stepEffects, call_mcp_tool_effects]
    split <;> simp [isPostE]

/-- Claim C3, counterexample: entering choice 2 does cause exactly one
configured POST, but its body is the json-c serialization of the
envelope, which is not the compact text the claim states: json-c
serializes with its default spaced flag and escapes the forward slash
of tools/call. -/
theorem claim_C3_cex :
    (stepEffects (netLoopStep ⟨lit "2\n", List.replicate 1024 '\x00',
        List.replicate 4096 '\x00', fun _ => TransportOutcome.failure, 0⟩)).filter isPostE =
      [Effect.httpPost urlMcp ctJson
        (buildRequestBody (lit "get_status") (lit "\x7b\x7d"))] ∧
    buildRequestBody (lit "get_status") (lit "\x7b\x7d") ≠
      lit "\x7b\"jsonrpc\":\"2.0\",\"method\":\"tools/call\",\"id\":1,\"params\":\x7b\"name\":\"get_status\",\"arguments\":\x7b\x7d\x7d\x7d" := by
  exact ⟨rfl, by decide⟩

/-- Claim C3, amended: in the networked variant, entering choice 2
causes exactly one HTTP POST to http://localhost:8080/mcp with
Content-Type application/json, whose body is the json-c default
serialization of the envelope: the spaced, slash-escaped text holding
jsonrpc 2.0, method tools/call, id 1, and params with name get_status
and empty-object arguments. -/
theorem claim_C3 (rest ib rb : List Char) (orc : Nat → TransportOutcome) (k : Nat) :
    (stepEffects (netLoopStep ⟨'2' :: '\n' :: rest, ib, rb, orc, k⟩)).filter isPostE =
      [Effect.httpPost (lit "http://localhost:8080/mcp")
        (lit "Content-Type: application/json")
        (lit "\x7b \"jsonrpc\": \"2.0\", \"method\": \"tools\\/call\", \"id\": 1, \"params\": \x7b \"name\": \"get_status\", \"arguments\": \x7b \x7d \x7d \x7d")] := by
  have hb : buildRequestBody (lit "get_status") (lit "\x7b\x7d") =
      lit "\x7b \"jsonrpc\": \"2.0\", \"method\": \"tools\\/call\", \"id\": 1, \"params\": \x7b \"name\": \"get_status\", \"arguments\": \x7b \x7d \x7d \x7d" := by
    decide
  have hs : scanfD ('2' :: '\n' :: rest) = (some 2, '\n' :: rest) := rfl
  rcases h : orc k with _ | (_ | data) <;>
    simp [netLoopStep, hs, netAction, withMenu, stepEffects, call_mcp_tool, h, hb,
      isPostE, urlMcp, ctJson]

/-- Claim C2, counterexample: with the endpoint unreachable (every
transfer fails), entering choice 5 leaves the loop running but prints
nothing at all beyond the menu: exactly one print effect occurs in the
iteration, so no one-line error message is reported for this action. -/
theorem claim_C2_cex :
    isCont (netLoopStep ⟨lit "5\n", List.replicate 1024 '\x00',
        List.replicate 4096 '\x00', fun _ => TransportOutcome.failure, 0⟩) = true ∧
    (stepEffects (netLoopStep ⟨lit "5\n", List.replicate 1024 '\x00',
        List.replicate 4096 '\x00', fun _ => TransportOutcome.failure, 0⟩)).countP isPrintE = 1 := by
  exact ⟨rfl, rfl⟩

/-- Claim C2, amended: in the networked variant with the remote
endpoint unreachable (every transfer attempt fails), no menu action
terminates the process and the loop returns to the prompt; actions 1, 2
and 3 report the failure with their one-line error message as the last
output of the iteration, while actions 4, 5, 6 and 7 print nothing
after the transfer attempt because their failure branch is empty. -/
theorem claim_C2 (rest ib rb : List Char) (k : Nat) :
    (isCont (netLoopStep ⟨'1' :: '\n' :: rest, ib, rb,
        fun _ => TransportOutcome.failure, k⟩) = true ∧
      (stepEffects (netLoopStep ⟨'1' :: '\n' :: rest, ib, rb,
        fun _ => TransportOutcome.failure, k⟩)).getLast? =
        some (Effect.eprint (lit "Error calling generate tool\n"))) ∧
    (netLoopStep ⟨'2' :: '\n' :: rest, ib, rb, fun _ => TransportOutcome.failure, k⟩ =
      StepOut.cont ⟨'\n' :: rest, ib, rb, fun _ => TransportOutcome.failure, k + 1⟩
        [Effect.eprint menuStr,
         Effect.rpcCall (lit "get_status") (lit "\x7b\x7d"),
         Effect.httpPost urlMcp ctJson (buildRequestBody (lit "get_status") (lit "\x7b\x7d")),
         Effect.eprint (lit "Error getting status\n")]) ∧
    (netLoopStep ⟨'3' :: '\n' :: rest, ib, rb, fun _ => TransportOutcome.failure, k⟩ =
      StepOut.cont ⟨'\n' :: rest, ib, rb, fun _ => TransportOutcome.failure, k + 1⟩
        [Effect.eprint menuStr,
         Effect.rpcCall (lit "start_frontend") (lit "\x7b\x7d"),
         Effect.httpPost urlMcp ctJson (buildRequestBody (lit "start_frontend") (lit "\x7b\x7d")),
         Effect.eprint (lit "Error starting frontend\n")]) ∧
    (isCont (netLoopStep ⟨'4' :: '\n' :: rest, ib, rb,
        fun _ => TransportOutcome.failure, k⟩) = true ∧
      (stepEffects (netLoopStep ⟨'4' :: '\n' :: rest, ib, rb,
        fun _ => TransportOutcome.failure, k⟩)).getLast?.map isPrintE = some false) ∧
    (netLoopStep ⟨'5' :: '\n' :: rest, ib, rb, fun _ => TransportOutcome.failure, k⟩ =
      StepOut.cont ⟨'\n' :: rest, ib, rb, fun _ => TransportOutcome.failure, k + 1⟩
        [Effect.eprint menuStr,
         Effect.rpcCall (lit "get_agent_config") (lit "\x7b\x7d"),
         Effect.httpPost urlMcp ctJson (buildRequestBody (lit "get_agent_config") (lit "\x7b\x7d"))]) ∧
    (netLoopStep ⟨'6' :: '\n' :: rest, ib, rb, fun _ => TransportOutcome.failure, k⟩ =
      StepOut.cont ⟨'\n' :: rest, ib, rb, fun _ => TransportOutcome.failure, k + 1⟩
        [Effect.eprint menuStr,
         Effect.rpcCall (lit "db_status") (lit "\x7b\x7d"),
         Effect.httpPost urlMcp ctJson (buildRequestBody (lit "db_status") (lit "\x7b\x7d"))]) ∧
    (netLoopStep ⟨'7' :: '\n' :: rest, ib, rb, fun _ => TransportOutcome.failure, k⟩ =
      StepOut.cont ⟨'\n' :: rest, ib, rb, fun _ => TransportOutcome.failure, k + 1⟩
        [Effect.eprint menuStr,
         Effect.rpcCall (lit "get_settings") (lit "\x7b\x7d"),
         Effect.httpPost urlMcp ctJson (buildRequestBody (lit "get_settings") (lit "\x7b\x7d"))]) := by
  refine ⟨?_, rfl, rfl, ⟨rfl, rfl⟩, rfl, rfl, rfl⟩
  cases rest <;> exact ⟨rfl, rfl⟩

/-! ## Exit behaviour helpers -/

/-- Every dispatched action other than choice 8 continues the loop. -/
theorem netAction_ne8_cont (n : Int) (st : NetState) (hn : n ≠ 8) :
    isCont (withMenu (netAction n st)) = true := by
  unfold netAction
  split_ifs with h1 h2 h3 h4 h5 h6 h7 <;> rfl

/-- Every dispatched mock action other than choice 8 continues. -/
theorem mockAction_ne8_cont (n : Int) (st : MockState) (hn : n ≠ 8) :
    isCont (withMenu (mockAction n st)) = true := by
  unfold mockAction
  split_ifs with h1 h2 h3 h4 h5 h6 h7 <;> rfl

/-- A networked iteration that returns from main parsed choice 8 and
returned 0. -/
theorem netLoopStep_exit (st : NetState) (c : Int) (e : List Effect)
    (h : netLoopStep st = StepOut.exit c e) :
    (scanfD st.stdin).1 = some 8 ∧ c = 0 := by
  rcases hsc : (scanfD st.stdin).1 with _ | n
  · simp [netLoopStep, hsc] at h
  · by_cases hn : n = 8
    · subst hn
      refine ⟨rfl, ?_⟩
      simp [netLoopStep, hsc, netAction, withMenu] at h
      exact h.1.symm
    · have := netAction_ne8_cont n { st with stdin := (scanfD st.stdin).2 } hn
      rw [show withMenu (netAction n { st with stdin := (scanfD st.stdin).2 }) =
            netLoopStep st by simp [netLoopStep, hsc]] at this
      rw [h] at this
      simp [isCont] at this

/-- A mock iteration that returns from main parsed choice 8 and
returned 0. -/
theorem mockLoopStep_exit (st : MockState) (c : Int) (e : List Effect)
    (h : mockLoopStep st = StepOut.exit c e) :
    (scanfD st.stdin).1 = some 8 ∧ c = 0 := by
  rcases hsc : (scanfD st.stdin).1 with _ | n
  · simp [mockLoopStep, hsc] at h
  · by_cases hn : n = 8
    · subst hn
      refine ⟨rfl, ?_⟩
      simp [mockLoopStep, hsc, mockAction, withMenu] at h
      exact h.1.symm
    · have := mockAction_ne8_cont n { st with stdin := (scanfD st.stdin).2 } hn
      rw [show withMenu (mockAction n { st with stdin := (scanfD st.stdin).2 }) =
            mockLoopStep st by simp [mockLoopStep, hsc]] at this
      rw [h] at this
      simp [isCont] at this

/-- Any exit code the networked loop ever produces is 0. -/
theorem runNet_code : ∀ (f : Nat) (st : NetState) (c : Int),
    (runNet f st).2 = some c → c = 0 := by
  intro f
  induction f with
  | zero => intro st c h; simp [runNet] at h
  | succ f ih =>
      intro st c h
      rcases hstep : netLoopStep st with ⟨st1, e⟩ | ⟨c', e⟩
      · simp [runNet, hstep] at h
        exact ih st1 c h
      · simp [runNet, hstep] at h
        have h0 := (netLoopStep_exit st c' e hstep).2
        omega

/-- Any exit code the mock loop ever produces is 0. -/
theorem runMock_code : ∀ (f : Nat) (st : MockState) (c : Int),
    (runMock f st).2 = some c → c = 0 := by
  intro f
  induction f with
  | zero => intro st c h; simp [runMock] at h
  | succ f ih =>
      intro st c h
      rcases hstep : mockLoopStep st with ⟨st1, e⟩ | ⟨c', e⟩
      · simp [runMock, hstep] at h
        exact ih st1 c h
      · simp [runMock, hstep] at h
        have h0 := (mockLoopStep_exit st c' e hstep).2
        omega

/-- Claim C6: in both variants, a parsed choice of 8 makes the
iteration print the farewell and return 0 from main with no further
effects; an unparseable choice or any parsed choice other than 8
continues the loop; and every exit code either loop can ever produce is
0, so choice 8 is the only way the process exits on its own. -/
theorem claim_C6 :
    (∀ st : NetState, (scanfD st.stdin).1 = some 8 →
        netLoopStep st = StepOut.exit 0
          [Effect.eprint menuStr, Effect.eprint (lit "Goodbye!\n")]) ∧
    (∀ st : NetState, (scanfD st.stdin).1 = none → isCont (netLoopStep st) = true) ∧
    (∀ (st : NetState) (n : Int),
        (scanfD st.stdin).1 = some n → n ≠ 8 → isCont (netLoopStep st) = true) ∧
    (∀ st : MockState, (scanfD st.stdin).1 = some 8 →
        mockLoopStep st = StepOut.exit 0
          [Effect.eprint menuStr, Effect.eprint (lit "Goodbye!\n")]) ∧
    (∀ st : MockState, (scanfD st.stdin).1 = none → isCont (mockLoopStep st) = true) ∧
    (∀ (st : MockState) (n : Int),
        (scanfD st.stdin).1 = some n → n ≠ 8 → isCont (mockLoopStep st) = true) ∧
    (∀ (f : Nat) (st : NetState) (c : Int), (runNet f st).2 = some c → c = 0) ∧
    (∀ (f : Nat) (st : MockState) (c : Int), (runMock f st).2 = some c → c = 0) := by
  refine ⟨fun st h => ?_, fun st h => ?_, fun st n h hn => ?_,
          fun st h => ?_, fun st h => ?_, fun st n h hn => ?_,
          runNet_code, runMock_code⟩
  · simp [netLoopStep, h, netAction, withMenu]
  · simp [netLoopStep, h, isCont]
  · simp only [netLoopStep, h]
    exact netAction_ne8_cont n _ hn
  · simp [mockLoopStep, h, mockAction, withMenu]
  · simp [mockLoopStep, h, isCont]
  · simp only [mockLoopStep, h]
    exact mockAction_ne8_cont n _ hn

/-- Claim C6, witness: entering 8 exits both variants with code 0 and
the farewell; entering 3 keeps the networked loop running. -/
theorem claim_C6_witness :
    netLoopStep ⟨lit "8\n", [], [], fun _ => TransportOutcome.failure, 0⟩ =
      StepOut.exit 0 [Effect.eprint menuStr, Effect.eprint (lit "Goodbye!\n")] ∧
    mockLoopStep ⟨lit "8\n", []⟩ =
      StepOut.exit 0 [Effect.eprint menuStr, Effect.eprint (lit "Goodbye!\n")] ∧
    isCont (netLoopStep ⟨lit "3\n", [], [], fun _ => TransportOutcome.failure, 0⟩) = true ∧
    (runNet 1 ⟨lit "8\n", [], [], fun _ => TransportOutcome.failure, 0⟩).2 = some 0 ∧
    (0 : Int) = 0 :=
  ⟨claim_C6.1 ⟨lit "8\n", [], [], fun _ => TransportOutcome.failure, 0⟩ rfl,
   claim_C6.2.2.2.1 ⟨lit "8\n", []⟩ rfl,
   claim_C6.2.2.1 ⟨lit "3\n", [], [], fun _ => TransportOutcome.failure, 0⟩ 3 rfl (by decide),
   rfl,
   claim_C6.2.2.2.2.2.2.1 1 ⟨lit "8\n", [], [], fun _ => TransportOutcome.failure, 0⟩ 0 rfl⟩

/-- Claim C4: an unparseable menu choice makes the iteration print
exactly the menu and the invalid-input line, keep both buffers and the
call counter, leave the pending non-whitespace input unconsumed (only
leading whitespace, and a lone sign on a sign-without-digits failure,
is taken), and continue the loop; a parsed choice outside 1 through 8
prints exactly the menu and the invalid-choice line, consumes only the
number, and continues; neither performs any action or other effect. -/
theorem claim_C4 :
    (∀ st : NetState, (scanfD st.stdin).1 = none →
        netLoopStep st =
          StepOut.cont ⟨(scanfD st.stdin).2, st.inputBuf, st.resultBuf,
              st.oracle, st.calls⟩
            [Effect.eprint menuStr, Effect.eprint (lit "Invalid input\n")]) ∧
    (∀ (st : NetState) (n : Int),
        (scanfD st.stdin).1 = some n → n < 1 ∨ 8 < n →
        netLoopStep st =
          StepOut.cont ⟨(scanfD st.stdin).2, st.inputBuf, st.resultBuf,
              st.oracle, st.calls⟩
            [Effect.eprint menuStr, Effect.eprint (lit "Invalid choice\n")]) := by
  constructor
  · intro st h
    simp [netLoopStep, h]
  · intro st n h hn
    have h1 : ¬(n = 1) := by omega
    have h2 : ¬(n = 2) := by omega
    have h3 : ¬(n = 3) := by omega
    have h4 : ¬(n = 4) := by omega
    have h5 : ¬(n = 5) := by omega
    have h6 : ¬(n = 6) := by omega
    have h7 : ¬(n = 7) := by omega
    have h8 : ¬(n = 8) := by omega
    simp [netLoopStep, h, netAction, withMenu, h1, h2, h3, h4, h5, h6, h7, h8]

/-- Claim C4, witness: the junk line abc is reported as invalid input
and left pending; the out-of-range choice 9 is reported as an invalid
choice and consumed. -/
theorem claim_C4_witness :
    (netLoopStep ⟨lit "abc\n", [], [], fun _ => TransportOutcome.failure, 0⟩ =
      StepOut.cont ⟨lit "abc\n", [], [], fun _ => TransportOutcome.failure, 0⟩
        [Effect.eprint menuStr, Effect.eprint (lit "Invalid input\n")]) ∧
    (netLoopStep ⟨lit "9\n", [], [], fun _ => TransportOutcome.failure, 0⟩ =
      StepOut.cont ⟨lit "\n", [], [], fun _ => TransportOutcome.failure, 0⟩
        [Effect.eprint menuStr, Effect.eprint (lit "Invalid choice\n")]) :=
  ⟨claim_C4.1 _ rfl, claim_C4.2 _ 9 rfl (by omega)⟩

/-- One mock iteration produces console prints only. -/
theorem mockLoopStep_no_net (st : MockState) :
    ((stepEffects (mockLoopStep st)).all (fun e => !(isNetE e))) = true := by
  rcases h : (scanfD st.stdin).1 with _ | n
  · simp [mockLoopStep, h, stepEffects, isNetE, isRpcE, isPostE]
  · simp only [mockLoopStep, h]
    unfold mockAction
    split_ifs <;>
      simp [withMenu, stepEffects, isNetE, isRpcE, isPostE]

/-- Claim C8: for every amount of fuel and every starting state (hence
every input sequence), the mock variant performs no network effect of
either kind: its whole effect trace consists of console prints. -/
theorem claim_C8 (f : Nat) (st : MockState) :
    ((runMock f st).1.all (fun e => !(isNetE e))) = true := by
  induction f generalizing st with
  | zero => simp [runMock]
  | succ f ih =>
      rcases hstep : mockLoopStep st with ⟨st1, e⟩ | ⟨c, e⟩
      · have hs := mockLoopStep_no_net st
        rw [hstep] at hs
        simp only [runMock, hstep, List.all_append, Bool.and_eq_true]
        exact And.intro (by simpa [stepEffects] using hs) (ih st1)
      · have hs := mockLoopStep_no_net st
        rw [hstep] at hs
        simp only [runMock, hstep]
        simpa [stepEffects] using hs

/-- Setting the element at the index just past a prefix of known length
replaces the head of the suffix. -/
theorem set_at_append (l m : List Char) (n : Nat) (a : Char)
    (h : l.length = n) : (l ++ m).set n a = l ++ m.set 0 a := by
  subst h
  exact set_append_len l m a

/-- Claim C1, counterexample: a transfer that succeeds with an empty
response body (so WriteCallback never ran and response.data stayed
NULL) returns the success indicator yet leaves the output buffer
completely unmodified: the buffer still starts with its old byte A, not
with a NUL-terminated copy of the empty response text. -/
theorem claim_C1_cex :
    (call_mcp_tool (lit "get_status") (lit "\x7b\x7d") (TransportOutcome.success none)
        (List.replicate 4096 'A')).1 = 0 ∧
    (call_mcp_tool (lit "get_status") (lit "\x7b\x7d") (TransportOutcome.success none)
        (List.replicate 4096 'A')).2.1 = List.replicate 4096 'A' ∧
    (List.replicate 4096 'A').headD '\x00' ≠ '\x00' := by
  exact ⟨rfl, rfl, by decide⟩

/-- Claim C1, amended: if the transfer fails, call_mcp_tool returns -1
and the output buffer is unmodified; if the transfer succeeds but no
response data arrived, it returns 0 and the buffer is also unmodified;
if the transfer succeeds with a NUL-free response text, it returns 0
and the buffer holds the text truncated to the 4095-character capacity,
NUL-padded and NUL-terminated to its full 4096 bytes. -/
theorem claim_C1 (tool args data dest : List Char)
    (hdest : dest.length = 4096) (hdata : '\x00' ∉ data) :
    ((call_mcp_tool tool args TransportOutcome.failure dest).1 = -1 ∧
     (call_mcp_tool tool args TransportOutcome.failure dest).2.1 = dest) ∧
    ((call_mcp_tool tool args (TransportOutcome.success none) dest).1 = 0 ∧
     (call_mcp_tool tool args (TransportOutcome.success none) dest).2.1 = dest) ∧
    ((call_mcp_tool tool args (TransportOutcome.success (some data)) dest).1 = 0 ∧
     (call_mcp_tool tool args (TransportOutcome.success (some data)) dest).2.1 =
       data.take 4095 ++ List.replicate (4096 - min data.length 4095) '\x00') := by
  refine ⟨⟨rfl, rfl⟩, ⟨rfl, rfl⟩, rfl, ?_⟩
  show writeResponse dest data = _
  unfold writeResponse
  rw [cStr_of_no_nul data hdata]
  have hL : (data.take 4095 ++
      List.replicate (4095 - (data.take 4095).length) '\x00').length = 4095 := by
    simp [List.length_take]
  obtain ⟨x, hx⟩ :=
    List.length_eq_one.mp (show (dest.drop 4095).length = 1 by simp [hdest])
  rw [set_at_append _ _ _ _ hL, hx]
  simp only [List.set_cons_zero, List.append_assoc]
  have hk : (4095 - (data.take 4095).length) + 1 = 4096 - min data.length 4095 := by
    simp only [List.length_take]
    omega
  rw [← List.replicate_succ', hk]

/-- Claim C1, witness: concrete instances of the three cases with the
two-byte response ok and an all-NUL 4096-byte buffer. -/
theorem claim_C1_witness :
    ((call_mcp_tool (lit "get_status") (lit "\x7b\x7d") TransportOutcome.failure
        (List.replicate 4096 '\x00')).1 = -1 ∧
     (call_mcp_tool (lit "get_status") (lit "\x7b\x7d") TransportOutcome.failure
        (List.replicate 4096 '\x00')).2.1 = List.replicate 4096 '\x00') ∧
    ((call_mcp_tool (lit "get_status") (lit "\x7b\x7d") (TransportOutcome.success none)
        (List.replicate 4096 '\x00')).1 = 0 ∧
     (call_mcp_tool (lit "get_status") (lit "\x7b\x7d") (TransportOutcome.success none)
        (List.replicate 4096 '\x00')).2.1 = List.replicate 4096 '\x00') ∧
    ((call_mcp_tool (lit "get_status") (lit "\x7b\x7d")
        (TransportOutcome.success (some (lit "ok")))
        (List.replicate 4096 '\x00')).1 = 0 ∧
     (call_mcp_tool (lit "get_status") (lit "\x7b\x7d")
        (TransportOutcome.success (some (lit "ok")))
        (List.replicate 4096 '\x00')).2.1 =
       (lit "ok").take 4095 ++
         List.replicate (4096 - min (lit "ok").length 4095) '\x00') :=
  claim_C1 (lit "get_status") (lit "\x7b\x7d") (lit "ok")
    (List.replicate 4096 '\x00') (by rw [List.length_replicate]) (by decide)

/-- The menu print does not change which RPC entries an iteration
makes. -/
theorem filter_rpc_withMenu {σ : Type} (x : StepOut σ) :
    (stepEffects (withMenu x)).filter isRpcE = (stepEffects x).filter isRpcE := by
  cases x <;> simp [withMenu, stepEffects, isRpcE]

/-- Action 1 performs exactly one RPC entry, whose arguments string is
the one snprintf left in the result buffer. -/
theorem netAction1_rpc_args (st : NetState) :
    (stepEffects (netAction 1 st)).filter isRpcE =
      [Effect.rpcCall (lit "generate")
        (cStr (snprintfWrite st.resultBuf
          (lit "\x7b\"prompt\":\"" ++
            cStr (stripNewline (fgets1024 st.inputBuf (getchar1 st.stdin)).1) ++
            lit "\"\x7d")))] := by
  simp only [netAction, Int.reduceEq, reduceIte, stepEffects, call_mcp_tool_effects]
  split <;> simp [isRpcE]

/-- Reading one full line of at most 1023 clean characters through
getchar, fgets and the newline strip leaves exactly that line as the C
string of the input buffer. -/
theorem promptLine_cStr (line rest ib : List Char)
    (hlen : line.length ≤ 1023) (hnl : '\n' ∉ line) (hnul : '\x00' ∉ line) :
    cStr (stripNewline (fgets1024 ib (line ++ '\n' :: rest)).1) = line := by
  have hne : (line ++ '\n' :: rest).isEmpty = false := by cases line <;> rfl
  unfold fgets1024
  simp only [hne, Bool.false_eq_true, if_false]
  by_cases hl : line.length = 1023
  · rw [takeLine_full line ('\n' :: rest) 1023 hnl hl]
    rw [stripNewline_nul line _ hnl hnul, cStr_append_nul line _ hnul]
  · have hlt : line.length < 1023 := by omega
    rw [takeLine_newline line rest 1023 hnl hlt]
    rw [List.append_assoc, List.singleton_append]
    rw [stripNewline_line line _ hnl hnul]
    exact cStr_append_nul line _ hnul

set_option maxRecDepth 100000 in
/-- Claim C5, counterexample: a prompt line of 1024 characters exceeds
the 1023-character fgets capacity, so the arguments string embeds only
the first 1023 characters of the line, not the whole line as the claim
states for every prompt line. -/
theorem claim_C5_cex :
    (stepEffects (netLoopStep ⟨'1' :: '\n' :: (List.replicate 1024 'a' ++ ['\n']),
        List.replicate 1024 '\x00', List.replicate 4096 '\x00',
        fun _ => TransportOutcome.failure, 0⟩)).filter isRpcE =
      [Effect.rpcCall (lit "generate")
        (lit "\x7b\"prompt\":\"" ++ List.replicate 1023 'a' ++ lit "\"\x7d")] ∧
    (lit "\x7b\"prompt\":\"" ++ List.replicate 1023 'a' ++ lit "\"\x7d" : List Char) ≠
      lit "\x7b\"prompt\":\"" ++ List.replicate 1024 'a' ++ lit "\"\x7d" := by
  constructor
  · rfl
  · decide

/-- Claim C5, amended: entering choice 1 and then a prompt line of at
most 1023 characters containing no newline and no NUL causes exactly
one RPC entry with tool name generate, whose arguments string embeds
the line verbatim between the fixed prompt-object delimiters, by direct
substitution without any JSON escaping; longer lines are silently
truncated to 1023 characters by fgets. -/
theorem claim_C5 (line rest ib rb : List Char) (orc : Nat → TransportOutcome)
    (k : Nat) (hlen : line.length ≤ 1023) (hnl : '\n' ∉ line)
    (hnul : '\x00' ∉ line) :
    (stepEffects (netLoopStep ⟨'1' :: '\n' :: (line ++ '\n' :: rest),
        ib, rb, orc, k⟩)).filter isRpcE =
      [Effect.rpcCall (lit "generate")
        (lit "\x7b\"prompt\":\"" ++ line ++ lit "\"\x7d")] := by
  have hs : scanfD ('1' :: '\n' :: (line ++ '\n' :: rest)) =
      (some 1, '\n' :: (line ++ '\n' :: rest)) := rfl
  have hstep : netLoopStep ⟨'1' :: '\n' :: (line ++ '\n' :: rest), ib, rb, orc, k⟩ =
      withMenu (netAction 1 ⟨'\n' :: (line ++ '\n' :: rest), ib, rb, orc, k⟩) := by
    simp [netLoopStep, hs]
  rw [hstep, filter_rpc_withMenu, netAction1_rpc_args]
  have hpl := promptLine_cStr line rest ib hlen hnl hnul
  have hnn : '\x00' ∉ (lit "\x7b\"prompt\":\"" ++ line ++ lit "\"\x7d") := by
    simp only [List.mem_append, not_or]
    exact ⟨⟨by decide, hnul⟩, by decide⟩
  have hlen4 : (lit "\x7b\"prompt\":\"" ++ line ++ lit "\"\x7d").length ≤ 4095 := by
    simp only [List.length_append]
    have h1 : (lit "\x7b\"prompt\":\"").length = 11 := by decide
    have h2 : (lit "\"\x7d").length = 2 := by decide
    omega
  have hc : cStr (snprintfWrite rb (lit "\x7b\"prompt\":\"" ++ line ++ lit "\"\x7d")) =
      lit "\x7b\"prompt\":\"" ++ line ++ lit "\"\x7d" := by
    unfold snprintfWrite
    rw [List.take_of_length_le hlen4]
    exact cStr_append_nul _ _ hnn
  show [Effect.rpcCall (lit "generate")
      (cStr (snprintfWrite rb
        (lit "\x7b\"prompt\":\"" ++
          cStr (stripNewline (fgets1024 ib (line ++ '\n' :: rest)).1) ++
          lit "\"\x7d")))] =
    [Effect.rpcCall (lit "generate") (lit "\x7b\"prompt\":\"" ++ line ++ lit "\"\x7d")]
  rw [hpl, hc]

/-- Claim C5, witness: choice 1 followed by the line hello produces the
one RPC entry for tool generate with the prompt object holding hello. -/
theorem claim_C5_witness :
    (stepEffects (netLoopStep ⟨'1' :: '\n' :: (lit "hello" ++ '\n' :: []),
        List.replicate 1024 '\x00', List.replicate 4096 '\x00',
        fun _ => TransportOutcome.failure, 0⟩)).filter isRpcE =
      [Effect.rpcCall (lit "generate")
        (lit "\x7b\"prompt\":\"" ++ lit "hello" ++ lit "\"\x7d")] :=
  claim_C5 (lit "hello") [] (List.replicate 1024 '\x00') (List.replicate 4096 '\x00')
    (fun _ => TransportOutcome.failure) 0 (by decide) (by decide) (by decide)

/-- Claim C10: when the debug-level read of action 4 fails to parse an
integer, both variants proceed with the stale value of the shared
choice variable, which still holds 4: the networked variant enters the
RPC client for set_debug with the arguments object binding level to 4,
and the mock variant prints that the level was set to 4. -/
theorem claim_C10 (rest ib rb : List Char) (orc : Nat → TransportOutcome) (k : Nat)
    (h : (scanfD ('\n' :: rest)).1 = none) :
    (stepEffects (netLoopStep ⟨'4' :: '\n' :: rest, ib, rb, orc, k⟩)).filter isRpcE =
      [Effect.rpcCall (lit "set_debug") (lit "\x7b\"level\":4\x7d")] ∧
    mockLoopStep ⟨'4' :: '\n' :: rest, ib⟩ =
      StepOut.cont ⟨(scanfD ('\n' :: rest)).2, ib⟩
        [Effect.eprint menuStr, Effect.eprint (lit "Debug level (0-3): "),
         Effect.eprint (lit "Debug: Level set to 4\n")] := by
  have hs : scanfD ('4' :: '\n' :: rest) = (some 4, '\n' :: rest) := rfl
  have hfmt : lit "\x7b\"level\":" ++ ((toString (4 : Int)).data ++ lit "\x7d") =
      lit "\x7b\"level\":4\x7d" := by decide
  have hres : cStr (snprintfWrite rb (lit "\x7b\"level\":4\x7d")) =
      lit "\x7b\"level\":4\x7d" := by
    unfold snprintfWrite
    rw [List.take_of_length_le (by decide)]
    exact cStr_append_nul _ _ (by decide)
  have hmk : lit "Debug: Level set to " ++ ((toString (4 : Int)).data ++ lit "\n") =
      lit "Debug: Level set to 4\n" := by decide
  constructor
  · rcases ho : orc k with _ | (_ | data) <;>
      simp [netLoopStep, hs, netAction, withMenu, stepEffects, call_mcp_tool,
        h, ho, hfmt, hres, isRpcE]
  · simp [mockLoopStep, hs, mockAction, withMenu, h, hmk]

/-- Claim C10, witness: after choice 4, the pending line x fails the
integer read and the stale choice 4 is used as the level in both
variants. -/
theorem claim_C10_witness :
    (stepEffects (netLoopStep ⟨'4' :: '\n' :: lit "x\n", [], [],
        fun _ => TransportOutcome.failure, 0⟩)).filter isRpcE =
      [Effect.rpcCall (lit "set_debug") (lit "\x7b\"level\":4\x7d")] ∧
    mockLoopStep ⟨'4' :: '\n' :: lit "x\n", []⟩ =
      StepOut.cont ⟨(scanfD ('\n' :: lit "x\n")).2, []⟩
        [Effect.eprint menuStr, Effect.eprint (lit "Debug level (0-3): "),
         Effect.eprint (lit "Debug: Level set to 4\n")] :=
  claim_C10 (lit "x\n") [] [] (fun _ => TransportOutcome.failure) 0 rfl
